import Mathlib

/-!
Verification of the monad_magic NFT minting tool.

The development shallowly embeds the core logic of the tool:
`executeMint` (src/api/services/nft.js), `getConfigWithFallback`
(src/api/services/nft.js), `getGasPrice`, `monitorMintStart` and the
per-wallet minting loops (src/main.js), and `loadWallets`
(the environment/wallet loader).  External effects — contract calls,
receipt waits, fee-market reads, balance reads, environment variables,
private-key parsing — are modelled as oracles (plain functions supplied
as parameters), and the embedded functions record the calls they make
so that theorems can speak about which attempts were issued.
-/

/-- Error codes the source distinguishes on a thrown JS error
(`err.code === ethers.errors.CALL_EXCEPTION`, `INSUFFICIENT_FUNDS`). -/
inductive JsErrCode where
  | CALL_EXCEPTION
  | INSUFFICIENT_FUNDS
  | OTHER
deriving DecidableEq

/-- A thrown JS error: an optional error code plus a message.  Errors
thrown by plain `new Error(msg)` (such as the receipt-status check in
`executeMint`) carry no code. -/
structure JsErr where
  code : Option JsErrCode
  message : String
deriving DecidableEq

/-- A submitted transaction handle (the source only ever reads `tx.hash`). -/
structure Tx where
  hash : Nat
deriving DecidableEq

/-- A mined transaction receipt as used by the source:
`receipt.status`, `receipt.blockNumber`, `receipt.gasUsed`. -/
structure Receipt where
  status : Nat
  blockNumber : Nat
  gasUsed : Nat
deriving DecidableEq

/-- The two mint calling conventions of the source:
`"fourParams"` = `mintPublic(address,uint256,uint256,bytes)` and
`"twoParams"` = `mintPublic(address,uint256)`. -/
inductive MintVariant where
  | fourParams
  | twoParams
deriving DecidableEq

/-- The transaction options object built in `executeMint`
(`{ gasLimit, maxFeePerGas, maxPriorityFeePerGas, value: mintPrice }`). -/
structure TxOptions where
  gasLimit : Nat
  maxFeePerGas : Nat
  maxPriorityFeePerGas : Nat
  value : Nat
deriving DecidableEq

/-- Oracle for the chain as seen by `executeMint`: submitting a mint call
of a given variant with given options either returns a transaction handle
or throws, and waiting on a handle (`tx.wait()`) either returns a receipt
or throws. -/
structure ChainOracle where
  submit : MintVariant → TxOptions → Except JsErr Tx
  wait : Tx → Except JsErr Receipt

instance {ε α : Type} [DecidableEq ε] [DecidableEq α] : DecidableEq (Except ε α) := fun a b =>
  match a, b with
  | Except.ok x, Except.ok y =>
      if h : x = y then isTrue (by rw [h]) else isFalse (fun hc => by cases hc; exact h rfl)
  | Except.error x, Except.error y =>
      if h : x = y then isTrue (by rw [h]) else isFalse (fun hc => by cases hc; exact h rfl)
  | Except.ok _, Except.error _ => isFalse (fun hc => by cases hc)
  | Except.error _, Except.ok _ => isFalse (fun hc => by cases hc)

/-- Trace of the chain interactions one `executeMint` run performs, in
order: each contract-call submission (with the variant, the options and
the outcome) and each `tx.wait()`. -/
inductive ChainEvent where
  | submitted (variant : MintVariant) (opts : TxOptions) (outcome : Except JsErr Tx)
  | waited (tx : Tx) (outcome : Except JsErr Receipt)
deriving DecidableEq

/-- Result of `executeMint`: on success the source returns
`{ tx, successVariant }`, on failure `{ error: err.message }`. -/
inductive MintResult where
  | ok (tx : Tx) (successVariant : MintVariant)
  | err (message : String)
deriving DecidableEq

/-- Truthiness of `result.error` as tested by the callers of `executeMint`. -/
def MintResult.isErr : MintResult → Bool
  | MintResult.err _ => true
  | _ => false

/-- The `txOptions` object built at the top of `executeMint`. -/
def mkTxOptions (gasLimit maxFeePerGas maxPriorityFeePerGas value : Nat) : TxOptions :=
  { gasLimit := gasLimit, maxFeePerGas := maxFeePerGas,
    maxPriorityFeePerGas := maxPriorityFeePerGas, value := value }

/-- The inner `catch` of `executeMint` (src/api/services/nft.js lines
159–171): if the requested variant was `fourParams` and the caught error
has code `CALL_EXCEPTION`, make a single `twoParams` call with the very
same `txOptions` and return `{ tx, successVariant: "twoParams" }` on
success — without waiting for the transaction; any other error (or a
failure of the retry call itself) falls through to the outer `catch`,
which returns `{ error: err.message }`. -/
def tryAlternateVariant (o : ChainOracle) (mintVariant : MintVariant) (txOptions : TxOptions)
    (e : JsErr) (evs : List ChainEvent) : MintResult × List ChainEvent :=
  if mintVariant = MintVariant.fourParams ∧ e.code = some JsErrCode.CALL_EXCEPTION then
    match o.submit MintVariant.twoParams txOptions with
    | Except.ok tx =>
        (MintResult.ok tx MintVariant.twoParams,
          evs ++ [ChainEvent.submitted MintVariant.twoParams txOptions (Except.ok tx)])
    | Except.error e2 =>
        (MintResult.err e2.message,
          evs ++ [ChainEvent.submitted MintVariant.twoParams txOptions (Except.error e2)])
  else
    (MintResult.err e.message, evs)

/-- `executeMint` (src/api/services/nft.js lines 104–188), with the
contract address, wallet and explorer URL absorbed into the oracle and
the logging dropped.  The primary attempt submits the requested variant
with `txOptions`, waits for the receipt, and treats a receipt with
`status === 0` as a thrown code-less error ("交易执行失败，可能是合约条件不满足");
any error caught from the primary attempt goes through
`tryAlternateVariant`.  The returned list records every chain call made. -/
def executeMint (o : ChainOracle) (gasLimit maxFeePerGas : Nat) (mintVariant : MintVariant)
    (mintPrice maxPriorityFeePerGas : Nat) : MintResult × List ChainEvent :=
  let txOptions := mkTxOptions gasLimit maxFeePerGas maxPriorityFeePerGas mintPrice
  match o.submit mintVariant txOptions with
  | Except.error e =>
      tryAlternateVariant o mintVariant txOptions e
        [ChainEvent.submitted mintVariant txOptions (Except.error e)]
  | Except.ok tx =>
      match o.wait tx with
      | Except.error e =>
          tryAlternateVariant o mintVariant txOptions e
            [ChainEvent.submitted mintVariant txOptions (Except.ok tx),
             ChainEvent.waited tx (Except.error e)]
      | Except.ok receipt =>
          if receipt.status = 0 then
            tryAlternateVariant o mintVariant txOptions
              { code := none, message := "交易执行失败，可能是合约条件不满足" }
              [ChainEvent.submitted mintVariant txOptions (Except.ok tx),
               ChainEvent.waited tx (Except.ok receipt)]
          else
            (MintResult.ok tx mintVariant,
              [ChainEvent.submitted mintVariant txOptions (Except.ok tx),
               ChainEvent.waited tx (Except.ok receipt)])

/-- The options of every `twoParams` submission occurring in a trace. -/
def twoParamSubmits : List ChainEvent → List TxOptions
  | [] => []
  | ChainEvent.submitted MintVariant.twoParams opts _ :: rest => opts :: twoParamSubmits rest
  | _ :: rest => twoParamSubmits rest

/-- The public-stage portion of the sale configuration read from the
contract: `{ startTime, endTime, price }` (times in unix seconds, price
in wei). -/
structure PublicStage where
  startTime : Nat
  endTime : Nat
  price : Nat
deriving DecidableEq

/-- The contract configuration as consumed by the source
(`config.publicStage`). -/
structure SaleConfig where
  publicStage : PublicStage
deriving DecidableEq

/-- Oracle for the two shapes of the configuration read:
`contract.getConfig()` (no argument) and `contract["getConfig(uint256)"](id)`. -/
structure ConfigOracle where
  getConfigNoArg : Except Unit SaleConfig
  getConfigIndexed : Nat → Except Unit SaleConfig

/-- The `for (let id of fallbackIds)` loop inside `getConfigWithFallback`:
probe the indexed form on each id in order, returning the first success
tagged `"fourParams"`; if every probe throws, the trailing
`if (fallbackConfig)` test sees an unset variable and the function throws
`"Unable to retrieve configuration"`. -/
def probeFallbackIds (o : ConfigOracle) : List Nat → Except String (SaleConfig × MintVariant)
  | [] => Except.error "Unable to retrieve configuration"
  | id :: rest =>
      match o.getConfigIndexed id with
      | Except.ok c => Except.ok (c, MintVariant.fourParams)
      | Except.error _ => probeFallbackIds o rest

/-- `getConfigWithFallback` (src/api/services/nft.js lines 7–28): first
try the no-argument `getConfig()` (tagged `"twoParams"` on success), then
the indexed form with ids `[0, 1, 2, 3]` in order (tagged `"fourParams"`),
throwing only when all five probes fail. -/
def getConfigWithFallback (o : ConfigOracle) : Except String (SaleConfig × MintVariant) :=
  match o.getConfigNoArg with
  | Except.ok c => Except.ok (c, MintVariant.twoParams)
  | Except.error _ => probeFallbackIds o [0, 1, 2, 3]

/-- `monitorMintStart` (src/main.js lines 45–68), one monitoring tick.
It reads the configuration through `getConfigWithFallback`; on any read
error it returns `false` (keep waiting).  With a configuration in hand,
if `startTime ≤ now ≤ endTime` it invokes the start callback once with
the current price, returning `true` when the callback completes and
`false` if the callback throws; outside the window it returns `false`.
The second component records the arguments of the callback invocations
made during the tick. -/
def monitorMintStart (o : ConfigOracle) (now : Nat) (startCallback : Nat → Except Unit Unit) :
    Bool × List Nat :=
  match getConfigWithFallback o with
  | Except.error _ => (false, [])
  | Except.ok (config, _) =>
      if config.publicStage.startTime ≤ now ∧ now ≤ config.publicStage.endTime then
        match startCallback config.publicStage.price with
        | Except.ok _ => (true, [config.publicStage.price])
        | Except.error _ => (false, [config.publicStage.price])
      else (false, [])

/-- The `while (!isCompleted)` polling loop of `startMonitoring`
(src/main.js lines 160–167), run for a bounded number of ticks: tick `t`
sees the configuration oracle `o t` and clock reading `nows t`; the loop
stops at the first tick whose `monitorMintStart` returns `true` (and
reports that tick), otherwise it sleeps and polls the next tick. -/
def monitorTicks (o : Nat → ConfigOracle) (nows : Nat → Nat)
    (startCallback : Nat → Except Unit Unit) : Nat → Nat → Option Nat
  | _, 0 => none
  | t, fuel + 1 =>
      if (monitorMintStart (o t) (nows t) startCallback).1 then some t
      else monitorTicks o nows startCallback (t + 1) fuel

/-- One gwei in wei, the unit of `ethers.utils.parseUnits(x, "gwei")`. -/
def gwei : Nat := 1000000000

/-- The fee quote produced by `getGasPrice` in src/main.js:
`{ baseFee, currentGasPrice, suggestedMaxFee }`. -/
structure FeeQuote where
  baseFee : Nat
  currentGasPrice : Nat
  suggestedMaxFee : Nat
deriving DecidableEq

/-- Outcome of one `provider.getFeeData()` call: it can throw, return
data whose `lastBaseFeePerGas` is absent (both make the attempt fail),
or return a base fee. -/
inductive FeeFetch where
  | throws
  | missingBaseFee
  | ok (baseFee : Nat)
deriving DecidableEq

/-- Oracle for the fee-market reads of attempt `i` of `getGasPrice`:
the `getFeeData()` outcome and the `provider.getGasPrice()` outcome. -/
structure FeeOracle where
  fetch : Nat → FeeFetch
  gasPrice : Nat → Except Unit Nat

/-- The body of one retry iteration of `getGasPrice` (src/main.js lines
181–203): fail (`none`) if `getFeeData` throws or lacks
`lastBaseFeePerGas` or `provider.getGasPrice()` throws; otherwise return
the quote with `suggestedMaxFee` the greater of the current gas price and
`baseFee * 2`. -/
def attemptQuote (o : FeeOracle) (i : Nat) : Option FeeQuote :=
  match o.fetch i with
  | FeeFetch.ok baseFee =>
      match o.gasPrice i with
      | Except.ok currentGasPrice =>
          some { baseFee := baseFee, currentGasPrice := currentGasPrice,
                 suggestedMaxFee :=
                   if currentGasPrice > baseFee * 2 then currentGasPrice else baseFee * 2 }
      | Except.error _ => none
  | _ => none

/-- `getGasPrice` (src/main.js lines 177–224): up to 3 attempts to read
the fee market, returning the first successful attempt's quote; when the
third attempt also fails the error is caught and the conservative
defaults are returned (base fee 50 gwei, gas price 100 gwei, suggested
max fee equal to the default gas price).  The function never propagates
an error: its codomain is a plain `FeeQuote`. -/
def getGasPrice (o : FeeOracle) : FeeQuote :=
  match attemptQuote o 0 with
  | some q => q
  | none =>
      match attemptQuote o 1 with
      | some q => q
      | none =>
          match attemptQuote o 2 with
          | some q => q
          | none =>
              { baseFee := 50 * gwei, currentGasPrice := 100 * gwei,
                suggestedMaxFee := 100 * gwei }

/-- The required-amount computation shared by both per-wallet loops
(src/main.js lines 99 and 445):
`price.mul(mintAmount).add(maxFeePerGas.mul(gasLimit))`. -/
def requiredAmount (price mintAmount maxFeePerGas gasLimit : Nat) : Nat :=
  price * mintAmount + maxFeePerGas * gasLimit

/-- Per-wallet trace events of the minting loops: the wallet was skipped
by the balance preflight, or unit `j` was attempted and succeeded/failed. -/
inductive WalletEvent where
  | insufficient
  | unitOk (j : Nat)
  | unitErr (j : Nat)
deriving DecidableEq

/-- The mint-method choice of the immediate mode (`answers.mintMethod`):
`auto` tries `fourParams` and, on error, `twoParams`; `fixed v` uses the
user-specified variant only. -/
inductive MintMethod where
  | auto
  | fixed (v : MintVariant)
deriving DecidableEq

/-- One unit's mint logic in the immediate mode (src/main.js lines
460–536): in `auto` mode run `executeMint` with `fourParams` and, if its
result has `error` set, run it again with `twoParams` and keep that
result; in fixed mode run the chosen variant once. -/
def unitAttempt (method : MintMethod) (o : ChainOracle)
    (gasLimit maxFeePerGas price maxPriorityFeePerGas : Nat) : MintResult :=
  match method with
  | MintMethod.fixed v => (executeMint o gasLimit maxFeePerGas v price maxPriorityFeePerGas).1
  | MintMethod.auto =>
      match (executeMint o gasLimit maxFeePerGas MintVariant.fourParams price
              maxPriorityFeePerGas).1 with
      | MintResult.err _ =>
          (executeMint o gasLimit maxFeePerGas MintVariant.twoParams price
            maxPriorityFeePerGas).1
      | r => r

/-- The inner unit loop of the immediate mode (src/main.js lines 457–565)
starting at unit `j` with `fuel` units left: on a result with `error` set
the loop records the failure and `break`s — the wallet's remaining units
are skipped. -/
def unitsLoop (method : MintMethod) (o : Nat → ChainOracle)
    (gasLimit maxFeePerGas price maxPriorityFeePerGas : Nat) : Nat → Nat → List WalletEvent
  | _, 0 => []
  | j, fuel + 1 =>
      if (unitAttempt method (o j) gasLimit maxFeePerGas price maxPriorityFeePerGas).isErr then
        [WalletEvent.unitErr j]
      else
        WalletEvent.unitOk j ::
          unitsLoop method o gasLimit maxFeePerGas price maxPriorityFeePerGas (j + 1) fuel

/-- One wallet's processing in the immediate mode (src/main.js lines
440–571): the balance preflight skips the wallet (`continue`) when
`balance < requiredAmount`; otherwise the unit loop runs. -/
def runWalletImmediate (method : MintMethod) (balance : Nat) (o : Nat → ChainOracle)
    (gasLimit maxFeePerGas price maxPriorityFeePerGas mintAmount : Nat) : List WalletEvent :=
  if balance < requiredAmount price mintAmount maxFeePerGas gasLimit then
    [WalletEvent.insufficient]
  else
    unitsLoop method o gasLimit maxFeePerGas price maxPriorityFeePerGas 0 mintAmount

/-- Environment of one orchestration run: each wallet's balance and, for
each wallet `i` and unit `j`, the chain behaviour that wallet's unit-`j`
attempt will observe. -/
structure RunEnv where
  balances : Nat → Nat
  oracles : Nat → Nat → ChainOracle

/-- The outer wallet loop of the immediate mode, from wallet `i` with
`n` wallets left.  A `break` in one wallet's unit loop only ends that
wallet's units; the loop always proceeds to the next wallet. -/
def runImmediateFrom (method : MintMethod) (env : RunEnv)
    (gasLimit maxFeePerGas price maxPriorityFeePerGas mintAmount : Nat) :
    Nat → Nat → List (Nat × WalletEvent)
  | _, 0 => []
  | i, n + 1 =>
      (runWalletImmediate method (env.balances i) (env.oracles i)
          gasLimit maxFeePerGas price maxPriorityFeePerGas mintAmount).map (fun ev => (i, ev))
        ++ runImmediateFrom method env gasLimit maxFeePerGas price maxPriorityFeePerGas
            mintAmount (i + 1) n

/-- The full immediate-mode run over `numWallets` wallets
(src/main.js lines 440–571). -/
def runImmediate (method : MintMethod) (env : RunEnv)
    (gasLimit maxFeePerGas price maxPriorityFeePerGas mintAmount numWallets : Nat) :
    List (Nat × WalletEvent) :=
  runImmediateFrom method env gasLimit maxFeePerGas price maxPriorityFeePerGas mintAmount
    0 numWallets

/-- The unit loop of the monitoring mode's `startMinting` (src/main.js
lines 110–143), threading the `isFirstAttempt` flag: every unit runs
`executeMint` with `fourParams`; when the result has `error` set and
`isFirstAttempt` is still true, the flag is cleared and a single
`twoParams` retry is made.  No failure breaks the loop — every unit is
attempted. -/
def monitorUnits (o : Nat → ChainOracle)
    (gasLimit maxFeePerGas price maxPriorityFeePerGas : Nat) :
    Nat → Nat → Bool → List WalletEvent × Bool
  | _, 0, firstAttempt => ([], firstAttempt)
  | j, fuel + 1, firstAttempt =>
      if (executeMint (o j) gasLimit maxFeePerGas MintVariant.fourParams price
            maxPriorityFeePerGas).1.isErr then
        if firstAttempt then
          let retry := (executeMint (o j) gasLimit maxFeePerGas MintVariant.twoParams price
            maxPriorityFeePerGas).1
          let rest := monitorUnits o gasLimit maxFeePerGas price maxPriorityFeePerGas
            (j + 1) fuel false
          ((if retry.isErr then WalletEvent.unitErr j else WalletEvent.unitOk j) :: rest.1,
            rest.2)
        else
          let rest := monitorUnits o gasLimit maxFeePerGas price maxPriorityFeePerGas
            (j + 1) fuel firstAttempt
          (WalletEvent.unitErr j :: rest.1, rest.2)
      else
        let rest := monitorUnits o gasLimit maxFeePerGas price maxPriorityFeePerGas
          (j + 1) fuel firstAttempt
        (WalletEvent.unitOk j :: rest.1, rest.2)

/-- The wallet loop of the monitoring mode's `startMinting` (src/main.js
lines 94–148), from wallet `i` with `n` wallets left, threading the
`isFirstAttempt` flag across wallets: each wallet gets the same balance
preflight (`continue` on insufficient balance) and then the no-break unit
loop. -/
def monitorWallets (env : RunEnv)
    (gasLimit maxFeePerGas price maxPriorityFeePerGas mintAmount : Nat) :
    Nat → Nat → Bool → List (Nat × WalletEvent)
  | _, 0, _ => []
  | i, n + 1, firstAttempt =>
      if env.balances i < requiredAmount price mintAmount maxFeePerGas gasLimit then
        (i, WalletEvent.insufficient) ::
          monitorWallets env gasLimit maxFeePerGas price maxPriorityFeePerGas mintAmount
            (i + 1) n firstAttempt
      else
        let u := monitorUnits (env.oracles i) gasLimit maxFeePerGas price maxPriorityFeePerGas
          0 mintAmount firstAttempt
        (u.1.map (fun ev => (i, ev)))
          ++ monitorWallets env gasLimit maxFeePerGas price maxPriorityFeePerGas mintAmount
              (i + 1) n u.2

/-- One entry of the process environment (`process.env` as a keyed list). -/
structure EnvEntry where
  name : String
  value : String
deriving DecidableEq

/-- `process.env[k]`: the value of the first entry named `k`. -/
def envLookup (env : List EnvEntry) (k : String) : Option String :=
  match env.find? (fun e2 => e2.name == k) with
  | some e2 => some e2.value
  | none => none

/-- JS `s.startsWith(pre)`, computed on the character lists. -/
def jsStartsWith (s pre : String) : Bool :=
  List.isPrefixOf pre.data s.data

/-- The characters of `s.split("_")[1]`: the segment between the first
underscore and the next one, or `none` (JS `undefined`) when the string
has no underscore. -/
def secondSegment : List Char → Option (List Char)
  | [] => none
  | c :: rest =>
      if c = '_' then some (rest.takeWhile (fun d => ¬ d = '_'))
      else secondSegment rest

/-- `parseInt` applied to a segment's characters: the leading decimal
digits, or `none` (JS `NaN`) when there are none. -/
def jsParseInt (ds0 : List Char) : Option Nat :=
  let ds := ds0.takeWhile Char.isDigit
  if ds.isEmpty then none
  else some (ds.foldl (fun acc c => acc * 10 + (c.toNat - 48)) 0)

/-- The sort key of `loadWallets`: `parseInt(name.split("_")[1])`;
`none` stands for JS `NaN` (no `"_"` segment or no digits). -/
def walletKeyNum (name : String) : Option Nat :=
  match secondSegment name.data with
  | some t => jsParseInt t
  | none => none

/-- The numeric comparator `(a, b) => numA - numB` of `loadWallets` as a
total order for a stable insertion sort; comparisons involving a `NaN`
key (a comparator result of `NaN`) leave the relative order unchanged,
matching a stable engine sort. -/
def walletKeyLe (a b : Option Nat) : Bool :=
  match a, b with
  | some x, some y => x ≤ y
  | _, _ => true

/-- Insert a key into an already sorted key list, keeping earlier
equal-keyed entries first (stability). -/
def insertWalletKey (x : String) : List String → List String
  | [] => [x]
  | y :: ys =>
      if walletKeyLe (walletKeyNum y) (walletKeyNum x) then y :: insertWalletKey x ys
      else x :: y :: ys

/-- The `.sort(...)` of `loadWallets` on the filtered key names. -/
def sortWalletKeys : List String → List String
  | [] => []
  | x :: xs => insertWalletKey x (sortWalletKeys xs)

/-- A loaded wallet record `{ id, address, privateKey }`. -/
structure WalletRec where
  id : Nat
  address : String
  privateKey : String
deriving DecidableEq

/-- `loadWallets` (src/unnamed/part_000 lines 22–54), with
`new ethers.Wallet(privateKey)` modelled as an oracle from private keys
to addresses (`none` = the constructor throws).  The names of the
environment entries are filtered to those starting with `"PRIVATEKEY"`
and sorted by numeric suffix; only `walletKeys[0]` is ever read, and a
record is pushed only when its value starts with `"0x"` and parses as a
wallet. -/
def loadWallets (parseWallet : String → Option String) (env : List EnvEntry) : List WalletRec :=
  let walletKeys := sortWalletKeys
    ((env.filter (fun e2 => jsStartsWith e2.name "PRIVATEKEY")).map (fun e2 => e2.name))
  match walletKeys with
  | [] => []
  | k :: _ =>
      match envLookup env k with
      | none => []
      | some privateKey =>
          if jsStartsWith privateKey "0x" then
            match parseWallet privateKey with
            | some address => [{ id := 1, address := address, privateKey := privateKey }]
            | none => []
          else []


/-! ## Helper lemmas about `executeMint` -/

theorem twoParamSubmits_append (a b : List ChainEvent) :
    twoParamSubmits (a ++ b) = twoParamSubmits a ++ twoParamSubmits b := by
  induction a with
  | nil => rfl
  | cons ev rest ih =>
      cases ev with
      | submitted v opts outcome =>
          cases v with
          | fourParams => simpa [twoParamSubmits] using ih
          | twoParams => simpa [twoParamSubmits] using ih
      | waited tx outcome => simpa [twoParamSubmits] using ih

theorem executeMint_submit_error (o : ChainOracle)
    (gasLimit maxFeePerGas mintPrice maxPriorityFeePerGas : Nat) (v : MintVariant) (e : JsErr)
    (h : o.submit v (mkTxOptions gasLimit maxFeePerGas maxPriorityFeePerGas mintPrice)
      = Except.error e) :
    executeMint o gasLimit maxFeePerGas v mintPrice maxPriorityFeePerGas
      = tryAlternateVariant o v (mkTxOptions gasLimit maxFeePerGas maxPriorityFeePerGas mintPrice)
          e [ChainEvent.submitted v
              (mkTxOptions gasLimit maxFeePerGas maxPriorityFeePerGas mintPrice)
              (Except.error e)] := by
  simp only [executeMint]
  rw [h]

theorem executeMint_wait_error (o : ChainOracle)
    (gasLimit maxFeePerGas mintPrice maxPriorityFeePerGas : Nat) (v : MintVariant)
    (tx : Tx) (e : JsErr)
    (h1 : o.submit v (mkTxOptions gasLimit maxFeePerGas maxPriorityFeePerGas mintPrice)
      = Except.ok tx)
    (h2 : o.wait tx = Except.error e) :
    executeMint o gasLimit maxFeePerGas v mintPrice maxPriorityFeePerGas
      = tryAlternateVariant o v (mkTxOptions gasLimit maxFeePerGas maxPriorityFeePerGas mintPrice)
          e [ChainEvent.submitted v
              (mkTxOptions gasLimit maxFeePerGas maxPriorityFeePerGas mintPrice)
              (Except.ok tx),
             ChainEvent.waited tx (Except.error e)] := by
  simp only [executeMint, h1, h2]

theorem executeMint_wait_ok (o : ChainOracle)
    (gasLimit maxFeePerGas mintPrice maxPriorityFeePerGas : Nat) (v : MintVariant)
    (tx : Tx) (receipt : Receipt)
    (h1 : o.submit v (mkTxOptions gasLimit maxFeePerGas maxPriorityFeePerGas mintPrice)
      = Except.ok tx)
    (h2 : o.wait tx = Except.ok receipt) :
    executeMint o gasLimit maxFeePerGas v mintPrice maxPriorityFeePerGas
      = if receipt.status = 0 then
          tryAlternateVariant o v
            (mkTxOptions gasLimit maxFeePerGas maxPriorityFeePerGas mintPrice)
            { code := none, message := "交易执行失败，可能是合约条件不满足" }
            [ChainEvent.submitted v
              (mkTxOptions gasLimit maxFeePerGas maxPriorityFeePerGas mintPrice)
              (Except.ok tx),
             ChainEvent.waited tx (Except.ok receipt)]
        else
          (MintResult.ok tx v,
            [ChainEvent.submitted v
              (mkTxOptions gasLimit maxFeePerGas maxPriorityFeePerGas mintPrice)
              (Except.ok tx),
             ChainEvent.waited tx (Except.ok receipt)]) := by
  simp only [executeMint, h1, h2]

theorem tryAlternateVariant_fires (o : ChainOracle) (opts : TxOptions) (e : JsErr)
    (evs : List ChainEvent) (hcode : e.code = some JsErrCode.CALL_EXCEPTION) :
    tryAlternateVariant o MintVariant.fourParams opts e evs
      = match o.submit MintVariant.twoParams opts with
        | Except.ok tx =>
            (MintResult.ok tx MintVariant.twoParams,
              evs ++ [ChainEvent.submitted MintVariant.twoParams opts (Except.ok tx)])
        | Except.error e2 =>
            (MintResult.err e2.message,
              evs ++ [ChainEvent.submitted MintVariant.twoParams opts (Except.error e2)]) := by
  simp [tryAlternateVariant, hcode]

theorem tryAlternateVariant_skips (o : ChainOracle) (v : MintVariant) (opts : TxOptions)
    (e : JsErr) (evs : List ChainEvent)
    (h : ¬ (v = MintVariant.fourParams ∧ e.code = some JsErrCode.CALL_EXCEPTION)) :
    tryAlternateVariant o v opts e evs = (MintResult.err e.message, evs) := by
  simp [tryAlternateVariant, h]

theorem tryAlternateVariant_trace (o : ChainOracle) (opts : TxOptions) (e : JsErr)
    (evs : List ChainEvent) (hcode : e.code = some JsErrCode.CALL_EXCEPTION)
    (hevs : twoParamSubmits evs = []) :
    twoParamSubmits (tryAlternateVariant o MintVariant.fourParams opts e evs).2 = [opts]
    ∧ ∀ tx2, o.submit MintVariant.twoParams opts = Except.ok tx2 →
        (tryAlternateVariant o MintVariant.fourParams opts e evs).1
          = MintResult.ok tx2 MintVariant.twoParams := by
  rw [tryAlternateVariant_fires o opts e evs hcode]
  cases h2 : o.submit MintVariant.twoParams opts with
  | ok tx2 =>
      refine ⟨by simp [twoParamSubmits_append, twoParamSubmits, hevs], ?_⟩
      intro tx3 h3
      cases h3
      rfl
  | error e2 =>
      refine ⟨by simp [twoParamSubmits_append, twoParamSubmits, hevs], ?_⟩
      intro tx3 h3
      cases h3

/-- C1: when an `executeMint` run requested with the `fourParams` variant
fails with a `CALL_EXCEPTION`-class error (on submission, or while
waiting for the submitted transaction's receipt), the run makes exactly
one fallback submission, that submission uses the `twoParams` call shape
with the very same `txOptions` — identical `gasLimit`, `maxFeePerGas`,
`maxPriorityFeePerGas` and `value` — and when the fallback submission
succeeds the returned result records `twoParams` as the variant that
succeeded. -/
theorem executeMint_callException_single_twoParam_fallback (o : ChainOracle)
    (gasLimit maxFeePerGas mintPrice maxPriorityFeePerGas : Nat) (e : JsErr)
    (hcode : e.code = some JsErrCode.CALL_EXCEPTION)
    (hfail :
      o.submit MintVariant.fourParams
          (mkTxOptions gasLimit maxFeePerGas maxPriorityFeePerGas mintPrice) = Except.error e
      ∨ ∃ tx, o.submit MintVariant.fourParams
            (mkTxOptions gasLimit maxFeePerGas maxPriorityFeePerGas mintPrice) = Except.ok tx
          ∧ o.wait tx = Except.error e) :
    twoParamSubmits
        (executeMint o gasLimit maxFeePerGas MintVariant.fourParams mintPrice
          maxPriorityFeePerGas).2
      = [mkTxOptions gasLimit maxFeePerGas maxPriorityFeePerGas mintPrice]
    ∧ ∀ tx2,
        o.submit MintVariant.twoParams
            (mkTxOptions gasLimit maxFeePerGas maxPriorityFeePerGas mintPrice)
          = Except.ok tx2 →
        (executeMint o gasLimit maxFeePerGas MintVariant.fourParams mintPrice
          maxPriorityFeePerGas).1 = MintResult.ok tx2 MintVariant.twoParams := by
  rcases hfail with h | ⟨tx, hsub, hwait⟩
  · rw [executeMint_submit_error o gasLimit maxFeePerGas mintPrice maxPriorityFeePerGas
      MintVariant.fourParams e h]
    exact tryAlternateVariant_trace o _ e _ hcode rfl
  · rw [executeMint_wait_error o gasLimit maxFeePerGas mintPrice maxPriorityFeePerGas
      MintVariant.fourParams tx e hsub hwait]
    exact tryAlternateVariant_trace o _ e _ hcode rfl

/-- Concrete chain behaviour: the `fourParams` submission reverts with a
`CALL_EXCEPTION`, the `twoParams` submission is accepted, and the mined
receipt of any transaction reports execution failure (`status = 0`). -/
def cexOracle : ChainOracle :=
  { submit := fun v _ =>
      match v with
      | MintVariant.fourParams =>
          Except.error { code := some JsErrCode.CALL_EXCEPTION, message := "execution reverted" }
      | MintVariant.twoParams => Except.ok { hash := 0 },
    wait := fun _ => Except.ok { status := 0, blockNumber := 7, gasUsed := 90000 } }

theorem executeMint_callException_fallback_witness :
    twoParamSubmits (executeMint cexOracle 110000 100 MintVariant.fourParams 5 10).2
      = [mkTxOptions 110000 100 10 5]
    ∧ (executeMint cexOracle 110000 100 MintVariant.fourParams 5 10).1
      = MintResult.ok { hash := 0 } MintVariant.twoParams := by
  have h := executeMint_callException_single_twoParam_fallback cexOracle 110000 100 5 10
    { code := some JsErrCode.CALL_EXCEPTION, message := "execution reverted" } rfl (Or.inl rfl)
  exact ⟨h.1, h.2 { hash := 0 } rfl⟩

/-- C2, counterexample: a mint attempt whose submission succeeds on the
automatic variant-fallback path does NOT wait to be mined, and a receipt
with failure status does not make the result a `Failure` there.  With
`cexOracle`, the `fourParams` submission reverts, the fallback
`twoParams` submission succeeds, and the chain's receipt for that
transaction has `status = 0`; yet `executeMint` returns a success result
and its trace contains no wait at all — both submissions and nothing
else. -/
theorem executeMint_fallback_skips_wait_counterexample :
    executeMint cexOracle 110000 100 MintVariant.fourParams 5 10
      = (MintResult.ok { hash := 0 } MintVariant.twoParams,
         [ChainEvent.submitted MintVariant.fourParams (mkTxOptions 110000 100 10 5)
            (Except.error { code := some JsErrCode.CALL_EXCEPTION,
                            message := "execution reverted" }),
          ChainEvent.submitted MintVariant.twoParams (mkTxOptions 110000 100 10 5)
            (Except.ok { hash := 0 })])
    ∧ cexOracle.wait { hash := 0 }
      = Except.ok { status := 0, blockNumber := 7, gasUsed := 90000 } :=
  ⟨rfl, rfl⟩

/-- C2, amended: on the primary attempt (the variant the run was
requested with), a successful submission is followed by a wait for the
receipt, and a receipt with failure status yields an error result even
though the transaction was included; on the automatic variant-fallback
path, however, a successful `twoParams` submission is returned as a
success immediately, with no wait — the trace ends at the fallback
submission. -/
theorem executeMint_receipt_failure_paths (o : ChainOracle)
    (gasLimit maxFeePerGas mintPrice maxPriorityFeePerGas : Nat) :
    (∀ (v : MintVariant) (tx : Tx) (receipt : Receipt),
        o.submit v (mkTxOptions gasLimit maxFeePerGas maxPriorityFeePerGas mintPrice)
          = Except.ok tx →
        o.wait tx = Except.ok receipt → receipt.status = 0 →
        (executeMint o gasLimit maxFeePerGas v mintPrice maxPriorityFeePerGas).1
          = MintResult.err "交易执行失败，可能是合约条件不满足")
    ∧ (∀ (e : JsErr) (tx2 : Tx),
        o.submit MintVariant.fourParams
            (mkTxOptions gasLimit maxFeePerGas maxPriorityFeePerGas mintPrice)
          = Except.error e →
        e.code = some JsErrCode.CALL_EXCEPTION →
        o.submit MintVariant.twoParams
            (mkTxOptions gasLimit maxFeePerGas maxPriorityFeePerGas mintPrice)
          = Except.ok tx2 →
        executeMint o gasLimit maxFeePerGas MintVariant.fourParams mintPrice
            maxPriorityFeePerGas
          = (MintResult.ok tx2 MintVariant.twoParams,
             [ChainEvent.submitted MintVariant.fourParams
                (mkTxOptions gasLimit maxFeePerGas maxPriorityFeePerGas mintPrice)
                (Except.error e),
              ChainEvent.submitted MintVariant.twoParams
                (mkTxOptions gasLimit maxFeePerGas maxPriorityFeePerGas mintPrice)
                (Except.ok tx2)])) := by
  constructor
  · intro v tx receipt h1 h2 h3
    rw [executeMint_wait_ok o gasLimit maxFeePerGas mintPrice maxPriorityFeePerGas v tx
      receipt h1 h2, if_pos h3,
      tryAlternateVariant_skips o v _ _ _ (fun hc => Option.noConfusion hc.2)]
  · intro e tx2 h1 hc h2
    rw [executeMint_submit_error o gasLimit maxFeePerGas mintPrice maxPriorityFeePerGas
      MintVariant.fourParams e h1, tryAlternateVariant_fires o _ e _ hc]
    simp [h2]

theorem executeMint_receipt_failure_paths_witness :
    (executeMint cexOracle 110000 100 MintVariant.twoParams 5 10).1
      = MintResult.err "交易执行失败，可能是合约条件不满足"
    ∧ executeMint cexOracle 110000 100 MintVariant.fourParams 5 10
      = (MintResult.ok { hash := 0 } MintVariant.twoParams,
         [ChainEvent.submitted MintVariant.fourParams (mkTxOptions 110000 100 10 5)
            (Except.error { code := some JsErrCode.CALL_EXCEPTION,
                            message := "execution reverted" }),
          ChainEvent.submitted MintVariant.twoParams (mkTxOptions 110000 100 10 5)
            (Except.ok { hash := 0 })]) :=
  ⟨(executeMint_receipt_failure_paths cexOracle 110000 100 5 10).1 MintVariant.twoParams
      { hash := 0 } { status := 0, blockNumber := 7, gasUsed := 90000 } rfl rfl rfl,
   (executeMint_receipt_failure_paths cexOracle 110000 100 5 10).2
      { code := some JsErrCode.CALL_EXCEPTION, message := "execution reverted" }
      { hash := 0 } rfl rfl rfl⟩

/-- C3: both per-wallet loops compute the required amount as
`price × mintAmount + maxFeePerGas × gasLimit`; a wallet whose balance is
exactly that amount minus 1 is reported insufficient and skipped with no
mint call (its whole trace is the `insufficient` event), while a wallet
whose balance is exactly that amount passes the preflight and proceeds to
the unit mint loop.  Stated for the immediate-mode loop
(src/main.js lines 444–452) and the monitoring-mode loop
(src/main.js lines 98–106). -/
theorem balancePreflight_boundary (method : MintMethod) (o : Nat → ChainOracle)
    (gasLimit maxFeePerGas price maxPriorityFeePerGas mintAmount : Nat)
    (hpos : 0 < requiredAmount price mintAmount maxFeePerGas gasLimit) :
    runWalletImmediate method (requiredAmount price mintAmount maxFeePerGas gasLimit - 1) o
        gasLimit maxFeePerGas price maxPriorityFeePerGas mintAmount
      = [WalletEvent.insufficient]
    ∧ runWalletImmediate method (requiredAmount price mintAmount maxFeePerGas gasLimit) o
        gasLimit maxFeePerGas price maxPriorityFeePerGas mintAmount
      = unitsLoop method o gasLimit maxFeePerGas price maxPriorityFeePerGas 0 mintAmount
    ∧ (∀ env : RunEnv,
        env.balances 0 = requiredAmount price mintAmount maxFeePerGas gasLimit - 1 →
        monitorWallets env gasLimit maxFeePerGas price maxPriorityFeePerGas mintAmount 0 1 true
          = [(0, WalletEvent.insufficient)])
    ∧ (∀ env : RunEnv,
        env.balances 0 = requiredAmount price mintAmount maxFeePerGas gasLimit →
        monitorWallets env gasLimit maxFeePerGas price maxPriorityFeePerGas mintAmount 0 1 true
          = (monitorUnits (env.oracles 0) gasLimit maxFeePerGas price maxPriorityFeePerGas
              0 mintAmount true).1.map (fun ev => (0, ev))) := by
  have hlt : requiredAmount price mintAmount maxFeePerGas gasLimit - 1
      < requiredAmount price mintAmount maxFeePerGas gasLimit := Nat.sub_lt hpos Nat.one_pos
  refine ⟨?_, ?_, ?_, ?_⟩
  · simp [runWalletImmediate, hlt]
  · simp [runWalletImmediate]
  · intro env hb
    simp [monitorWallets, hb, hlt]
  · intro env hb
    simp [monitorWallets, hb]

/-- Concrete environment for the boundary balance: every wallet holds
exactly one wei less than the required amount for 2 units at price 5,
max fee 100 and gas limit 110000. -/
def lowBalanceEnv : RunEnv :=
  { balances := fun _ => requiredAmount 5 2 100 110000 - 1,
    oracles := fun _ _ => cexOracle }

theorem balancePreflight_boundary_witness :
    runWalletImmediate (MintMethod.fixed MintVariant.twoParams)
        (requiredAmount 5 2 100 110000 - 1) (fun _ => cexOracle) 110000 100 5 10 2
      = [WalletEvent.insufficient]
    ∧ monitorWallets lowBalanceEnv 110000 100 5 10 2 0 1 true
      = [(0, WalletEvent.insufficient)] := by
  have h := balancePreflight_boundary (MintMethod.fixed MintVariant.twoParams)
    (fun _ => cexOracle) 110000 100 5 10 2 (by decide)
  exact ⟨h.1, h.2.2.1 lowBalanceEnv rfl⟩

theorem monitorUnits_length (o : Nat → ChainOracle)
    (gasLimit maxFeePerGas price maxPriorityFeePerGas : Nat) :
    ∀ (fuel j : Nat) (fa : Bool),
      (monitorUnits o gasLimit maxFeePerGas price maxPriorityFeePerGas j fuel fa).1.length
        = fuel := by
  intro fuel
  induction fuel with
  | zero => intro j fa; rfl
  | succ k ih =>
      intro j fa
      simp only [monitorUnits]
      split
      · split
        · simp [ih]
        · simp [ih]
      · simp [ih]

/-- C7, amended: in the immediate-mode per-wallet loop a `Failure` on one
unit aborts only that wallet's remaining units — with `mintAmount = 3`,
a success on unit 1 and a failure on unit 2 leave wallet 0's trace at
exactly those two events (unit 3 never attempted), while all subsequent
wallets are still processed in full, whatever wallet 0 did.  In the
monitoring-mode loop, by contrast, a failed unit aborts nothing: the unit
loop always attempts every one of its `fuel` units. -/
theorem immediateBreak_monitorNoBreak (method : MintMethod) (env : RunEnv)
    (gasLimit maxFeePerGas price maxPriorityFeePerGas n : Nat)
    (h0 : (unitAttempt method (env.oracles 0 0) gasLimit maxFeePerGas price
        maxPriorityFeePerGas).isErr = false)
    (h1 : (unitAttempt method (env.oracles 0 1) gasLimit maxFeePerGas price
        maxPriorityFeePerGas).isErr = true)
    (hbal : ¬ env.balances 0 < requiredAmount price 3 maxFeePerGas gasLimit) :
    runImmediate method env gasLimit maxFeePerGas price maxPriorityFeePerGas 3 (n + 2)
      = [(0, WalletEvent.unitOk 0), (0, WalletEvent.unitErr 1)]
        ++ runImmediateFrom method env gasLimit maxFeePerGas price maxPriorityFeePerGas 3
            1 (n + 1)
    ∧ ∀ (o : Nat → ChainOracle) (j fuel : Nat) (fa : Bool),
        (monitorUnits o gasLimit maxFeePerGas price maxPriorityFeePerGas j fuel fa).1.length
          = fuel := by
  constructor
  · have hw : runWalletImmediate method (env.balances 0) (env.oracles 0)
        gasLimit maxFeePerGas price maxPriorityFeePerGas 3
        = [WalletEvent.unitOk 0, WalletEvent.unitErr 1] := by
      rw [runWalletImmediate, if_neg hbal]
      simp [unitsLoop, h0, h1]
    rw [runImmediate, runImmediateFrom, hw]
    rfl
  · intro o j fuel fa
    exact monitorUnits_length o gasLimit maxFeePerGas price maxPriorityFeePerGas fuel j fa

/-- A chain that accepts and mines every call with success status. -/
def okOracle : ChainOracle :=
  { submit := fun _ _ => Except.ok { hash := 1 },
    wait := fun _ => Except.ok { status := 1, blockNumber := 10, gasUsed := 90000 } }

/-- A chain that rejects every call with a non-revert error. -/
def otherFailOracle : ChainOracle :=
  { submit := fun _ _ => Except.error { code := some JsErrCode.OTHER, message := "boom" },
    wait := fun _ => Except.error { code := some JsErrCode.OTHER, message := "boom" } }

/-- Environment in which every wallet is well funded, every wallet's
first unit succeeds, and every later unit fails on both variants. -/
def failAfterFirstEnv : RunEnv :=
  { balances := fun _ => 1000000000000,
    oracles := fun _ j => if j = 0 then okOracle else otherFailOracle }

/-- C7, counterexample: in the monitoring-mode per-wallet loop
(`startMinting`, src/main.js lines 110–143) a `Failure` does not abort
the wallet's remaining units.  With 3 units for wallet 0, unit 1
succeeding and unit 2 failing, the claim says unit 3 is skipped; the
code still attempts it — the trace contains an event for unit index 2. -/
theorem monitorLoop_no_unit_abort_counterexample :
    monitorWallets failAfterFirstEnv 110000 100 5 10 3 0 1 true
      = [(0, WalletEvent.unitOk 0), (0, WalletEvent.unitErr 1), (0, WalletEvent.unitErr 2)] := by
  rfl

theorem immediateBreak_monitorNoBreak_witness :
    runImmediate MintMethod.auto failAfterFirstEnv 110000 100 5 10 3 2
      = [(0, WalletEvent.unitOk 0), (0, WalletEvent.unitErr 1)]
        ++ runImmediateFrom MintMethod.auto failAfterFirstEnv 110000 100 5 10 3 1 1
    ∧ (monitorUnits (failAfterFirstEnv.oracles 0) 110000 100 5 10 0 3 true).1.length = 3 := by
  have h := immediateBreak_monitorNoBreak MintMethod.auto failAfterFirstEnv 110000 100 5 10 0
    rfl rfl (by decide)
  exact ⟨h.1, h.2 (failAfterFirstEnv.oracles 0) 0 3 true⟩

theorem attemptQuote_suggestedMaxFee (o : FeeOracle) (i : Nat) (q : FeeQuote)
    (h : attemptQuote o i = some q) :
    q.suggestedMaxFee = max q.currentGasPrice (q.baseFee * 2) := by
  unfold attemptQuote at h
  cases hf : o.fetch i with
  | throws => rw [hf] at h; cases h
  | missingBaseFee => rw [hf] at h; cases h
  | ok b =>
      rw [hf] at h
      cases hg : o.gasPrice i with
      | error e => rw [hg] at h; cases h
      | ok g =>
          rw [hg] at h
          cases h
          rcases le_or_lt g (b * 2) with hle | hlt
          · simp [Nat.not_lt.mpr hle, Nat.max_eq_right hle]
          · simp [hlt, Nat.max_eq_left hlt.le]

/-- C4: the suggested maximum fee of every fee estimation is the greater
of the current gas price and twice the base fee.  For any successful
fee-market read attempt the produced quote records that value, equal to
`currentGasPrice` exactly when `currentGasPrice > 2 × baseFee` and to
`2 × baseFee` otherwise; and the quote returned by `getGasPrice` always
satisfies `suggestedMaxFee = max currentGasPrice (baseFee × 2)`. -/
theorem getGasPrice_suggestedMaxFee (o : FeeOracle) :
    (getGasPrice o).suggestedMaxFee
      = max (getGasPrice o).currentGasPrice ((getGasPrice o).baseFee * 2)
    ∧ ∀ (i baseFee currentGasPrice : Nat),
        o.fetch i = FeeFetch.ok baseFee → o.gasPrice i = Except.ok currentGasPrice →
        attemptQuote o i
          = some { baseFee := baseFee, currentGasPrice := currentGasPrice,
                   suggestedMaxFee :=
                     if currentGasPrice > baseFee * 2 then currentGasPrice else baseFee * 2 }
        ∧ (currentGasPrice > baseFee * 2 →
            (attemptQuote o i).map FeeQuote.suggestedMaxFee = some currentGasPrice)
        ∧ (¬ currentGasPrice > baseFee * 2 →
            (attemptQuote o i).map FeeQuote.suggestedMaxFee = some (baseFee * 2)) := by
  constructor
  · unfold getGasPrice
    cases h0 : attemptQuote o 0 with
    | some q => exact attemptQuote_suggestedMaxFee o 0 q h0
    | none =>
        cases h1 : attemptQuote o 1 with
        | some q => exact attemptQuote_suggestedMaxFee o 1 q h1
        | none =>
            cases h2 : attemptQuote o 2 with
            | some q => exact attemptQuote_suggestedMaxFee o 2 q h2
            | none => decide
  · intro i b g hf hg
    have hq : attemptQuote o i
        = some { baseFee := b, currentGasPrice := g,
                 suggestedMaxFee := if g > b * 2 then g else b * 2 } := by
      simp only [attemptQuote, hf, hg]
    refine ⟨hq, ?_, ?_⟩
    · intro hgt
      rw [hq]
      simp [hgt]
    · intro hle
      rw [hq]
      simp [hle]

/-- A fee oracle whose every read succeeds with base fee 7 wei and gas
price 20 wei. -/
def goodFeeOracle : FeeOracle :=
  { fetch := fun _ => FeeFetch.ok 7, gasPrice := fun _ => Except.ok 20 }

theorem getGasPrice_suggestedMaxFee_witness :
    (getGasPrice goodFeeOracle).suggestedMaxFee
      = max (getGasPrice goodFeeOracle).currentGasPrice ((getGasPrice goodFeeOracle).baseFee * 2)
    ∧ (attemptQuote goodFeeOracle 0).map FeeQuote.suggestedMaxFee = some 20 := by
  have h := getGasPrice_suggestedMaxFee goodFeeOracle
  exact ⟨h.1, ((h.2 0 7 20 rfl rfl).2.1 (by decide))⟩

/-- C5: when all 3 fee-market read attempts fail, `getGasPrice` returns
the fixed conservative default quote — base fee 50 gwei, gas price
100 gwei, suggested max fee 100 gwei — instead of propagating an error
(the embedded function is total: its codomain is `FeeQuote`). -/
theorem getGasPrice_default_on_exhaustion (o : FeeOracle)
    (h : ∀ i, i < 3 → attemptQuote o i = none) :
    getGasPrice o
      = { baseFee := 50 * gwei, currentGasPrice := 100 * gwei,
          suggestedMaxFee := 100 * gwei } := by
  simp only [getGasPrice, h 0 (by decide), h 1 (by decide), h 2 (by decide)]

/-- A fee oracle whose every read fails. -/
def deadFeeOracle : FeeOracle :=
  { fetch := fun _ => FeeFetch.throws, gasPrice := fun _ => Except.error () }

theorem getGasPrice_default_witness :
    getGasPrice deadFeeOracle
      = { baseFee := 50 * gwei, currentGasPrice := 100 * gwei,
          suggestedMaxFee := 100 * gwei } :=
  getGasPrice_default_on_exhaustion deadFeeOracle (fun _ _ => rfl)

/-- C6: on a monitoring tick whose configuration read succeeds, a clock
strictly before `startTime` leaves the monitor waiting (`false`) with the
start callback never invoked; a clock inside `[startTime, endTime]` makes
the tick invoke the start callback exactly once, passing the sale's
current price, and — when the callback completes — report the open state
(`true`). -/
theorem monitorMintStart_tick (o : ConfigOracle) (now : Nat)
    (startCallback : Nat → Except Unit Unit) (c : SaleConfig) (v : MintVariant)
    (hread : getConfigWithFallback o = Except.ok (c, v)) :
    (now < c.publicStage.startTime → monitorMintStart o now startCallback = (false, []))
    ∧ (c.publicStage.startTime ≤ now → now ≤ c.publicStage.endTime →
        (monitorMintStart o now startCallback).2 = [c.publicStage.price]
        ∧ (startCallback c.publicStage.price = Except.ok () →
            monitorMintStart o now startCallback = (true, [c.publicStage.price]))) := by
  constructor
  · intro hlt
    simp [monitorMintStart, hread, Nat.not_le.mpr hlt]
  · intro h1 h2
    constructor
    · cases hcb : startCallback c.publicStage.price with
      | ok u => simp [monitorMintStart, hread, h1, h2, hcb]
      | error e => simp [monitorMintStart, hread, h1, h2, hcb]
    · intro hcb
      simp [monitorMintStart, hread, h1, h2, hcb]

/-- A sale configuration whose public stage runs from time 100 to 200 at
price 42 wei. -/
def openConfig : SaleConfig :=
  { publicStage := { startTime := 100, endTime := 200, price := 42 } }

/-- A configuration oracle whose no-argument read succeeds. -/
def openConfigOracle : ConfigOracle :=
  { getConfigNoArg := Except.ok openConfig, getConfigIndexed := fun _ => Except.error () }

theorem monitorMintStart_tick_witness :
    monitorMintStart openConfigOracle 50 (fun _ => Except.ok ()) = (false, [])
    ∧ monitorMintStart openConfigOracle 150 (fun _ => Except.ok ()) = (true, [42]) := by
  have hA := monitorMintStart_tick openConfigOracle 50 (fun _ => Except.ok ()) openConfig
    MintVariant.twoParams rfl
  have hB := monitorMintStart_tick openConfigOracle 150 (fun _ => Except.ok ()) openConfig
    MintVariant.twoParams rfl
  exact ⟨hA.1 (by decide), (hB.2 (by decide) (by decide)).2 rfl⟩

/-- C8: a monitoring tick whose configuration read fails does not
propagate the error — `monitorMintStart` is total and returns the
waiting state (`false`) with no callback invocation — and the polling
loop simply proceeds to the next tick. -/
theorem monitor_read_error_keeps_waiting (o : Nat → ConfigOracle) (nows : Nat → Nat)
    (startCallback : Nat → Except Unit Unit) (k fuel : Nat) (msg : String)
    (h : getConfigWithFallback (o k) = Except.error msg) :
    monitorMintStart (o k) (nows k) startCallback = (false, [])
    ∧ monitorTicks o nows startCallback k (fuel + 1)
      = monitorTicks o nows startCallback (k + 1) fuel := by
  have h1 : monitorMintStart (o k) (nows k) startCallback = (false, []) := by
    simp [monitorMintStart, h]
  refine ⟨h1, ?_⟩
  simp only [monitorTicks, h1]
  simp

/-- A configuration oracle whose every read fails. -/
def deadConfigOracle : ConfigOracle :=
  { getConfigNoArg := Except.error (), getConfigIndexed := fun _ => Except.error () }

theorem monitor_read_error_witness :
    monitorMintStart deadConfigOracle 0 (fun _ => Except.ok ()) = (false, [])
    ∧ monitorTicks (fun _ => deadConfigOracle) (fun _ => 0) (fun _ => Except.ok ()) 0 (4 + 1)
      = monitorTicks (fun _ => deadConfigOracle) (fun _ => 0) (fun _ => Except.ok ()) 1 4 :=
  monitor_read_error_keeps_waiting (fun _ => deadConfigOracle) (fun _ => 0)
    (fun _ => Except.ok ()) 0 4 "Unable to retrieve configuration" rfl

/-- C9: `getConfigWithFallback` probes in the fixed order: the
no-argument form first (first success wins, tagged `twoParams`), then the
indexed form with ids 0, 1, 2, 3 in order (first success wins, tagged
`fourParams`), and it throws `"Unable to retrieve configuration"` exactly
when all five probes fail. -/
theorem getConfigWithFallback_probe_order (o : ConfigOracle) :
    (∀ c, o.getConfigNoArg = Except.ok c →
        getConfigWithFallback o = Except.ok (c, MintVariant.twoParams))
    ∧ (∀ i c, i < 4 → o.getConfigNoArg = Except.error () →
        o.getConfigIndexed i = Except.ok c →
        (∀ j, j < i → o.getConfigIndexed j = Except.error ()) →
        getConfigWithFallback o = Except.ok (c, MintVariant.fourParams))
    ∧ (getConfigWithFallback o = Except.error "Unable to retrieve configuration" ↔
        o.getConfigNoArg = Except.error ()
        ∧ ∀ i, i < 4 → o.getConfigIndexed i = Except.error ()) := by
  refine ⟨?_, ?_, ?_, ?_⟩
  · intro c h
    simp [getConfigWithFallback, h]
  · intro i c hi hno hok hprev
    simp only [getConfigWithFallback, hno]
    interval_cases i
    · simp [probeFallbackIds, hok]
    · simp [probeFallbackIds, hprev 0 (by omega), hok]
    · simp [probeFallbackIds, hprev 0 (by omega), hprev 1 (by omega), hok]
    · simp [probeFallbackIds, hprev 0 (by omega), hprev 1 (by omega), hprev 2 (by omega), hok]
  · intro hres
    cases hno : o.getConfigNoArg with
    | ok c => simp [getConfigWithFallback, hno] at hres
    | error e =>
        cases e
        simp only [getConfigWithFallback, hno] at hres
        refine ⟨rfl, ?_⟩
        cases h0 : o.getConfigIndexed 0 with
        | ok c => simp [probeFallbackIds, h0] at hres
        | error e0 =>
            cases e0
            cases h1 : o.getConfigIndexed 1 with
            | ok c => simp [probeFallbackIds, h0, h1] at hres
            | error e1 =>
                cases e1
                cases h2 : o.getConfigIndexed 2 with
                | ok c => simp [probeFallbackIds, h0, h1, h2] at hres
                | error e2 =>
                    cases e2
                    cases h3 : o.getConfigIndexed 3 with
                    | ok c => simp [probeFallbackIds, h0, h1, h2, h3] at hres
                    | error e3 =>
                        cases e3
                        intro i hi
                        interval_cases i
                        · exact h0
                        · exact h1
                        · exact h2
                        · exact h3
  · rintro ⟨hno, hall⟩
    simp [getConfigWithFallback, hno, probeFallbackIds,
      hall 0 (by omega), hall 1 (by omega), hall 2 (by omega), hall 3 (by omega)]

/-- A configuration oracle for which only the indexed probe with id 2
succeeds. -/
def idx2ConfigOracle : ConfigOracle :=
  { getConfigNoArg := Except.error (),
    getConfigIndexed := fun i => if i = 2 then Except.ok openConfig else Except.error () }

theorem getConfigWithFallback_probe_order_witness :
    getConfigWithFallback openConfigOracle = Except.ok (openConfig, MintVariant.twoParams)
    ∧ getConfigWithFallback idx2ConfigOracle = Except.ok (openConfig, MintVariant.fourParams)
    ∧ getConfigWithFallback deadConfigOracle
      = Except.error "Unable to retrieve configuration" := by
  refine ⟨(getConfigWithFallback_probe_order openConfigOracle).1 openConfig rfl,
    (getConfigWithFallback_probe_order idx2ConfigOracle).2.1 2 openConfig (by decide)
      rfl rfl ?_,
    ((getConfigWithFallback_probe_order deadConfigOracle).2.2).mpr ⟨rfl, fun i _ => rfl⟩⟩
  intro j hj
  interval_cases j <;> rfl

/-- C10: `loadWallets` returns a list of length at most 1.  However many
`PRIVATEKEY*` entries the environment holds, only the head of the sorted
key list is ever read, and a record is returned only when that key's
value starts with `"0x"` and parses as a valid wallet. -/
theorem loadWallets_at_most_one (parseWallet : String → Option String)
    (env : List EnvEntry) :
    (loadWallets parseWallet env).length ≤ 1
    ∧ ∀ w, w ∈ loadWallets parseWallet env →
        jsStartsWith w.privateKey "0x" = true
        ∧ parseWallet w.privateKey = some w.address
        ∧ ∃ k, (sortWalletKeys ((env.filter
              (fun e2 => jsStartsWith e2.name "PRIVATEKEY")).map
                (fun e2 => e2.name))).head? = some k
            ∧ envLookup env k = some w.privateKey := by
  unfold loadWallets
  cases hks : sortWalletKeys ((env.filter
      (fun e2 => jsStartsWith e2.name "PRIVATEKEY")).map (fun e2 => e2.name)) with
  | nil => exact ⟨by simp, by simp⟩
  | cons k rest =>
      cases hlk : envLookup env k with
      | none => exact ⟨by simp [hlk], by simp [hlk]⟩
      | some pk =>
          by_cases hpx : jsStartsWith pk "0x"
          · cases hpw : parseWallet pk with
            | none => simp [hlk, hpx, hpw]
            | some address =>
                refine ⟨by simp [hlk, hpx, hpw], ?_⟩
                intro w hw
                simp only [hlk, hpx, if_true, hpw] at hw
                rw [List.mem_singleton] at hw
                subst hw
                exact ⟨hpx, by simp [hpw], k, rfl, hlk⟩
          · simp [hlk, hpx]

/-- A two-wallet environment configuration: two private-key entries,
listed out of numeric order. -/
def twoKeyEnv : List EnvEntry :=
  [{ name := "PRIVATEKEY_2", value := "0xbb" },
   { name := "PRIVATEKEY_1", value := "0xaa" }]

/-- A private-key parser accepting exactly the two test keys. -/
def parseWalletStub : String → Option String := fun s =>
  if s = "0xaa" then some "addrA" else if s = "0xbb" then some "addrB" else none

theorem loadWallets_at_most_one_witness :
    (loadWallets parseWalletStub twoKeyEnv).length ≤ 1
    ∧ (jsStartsWith (WalletRec.mk 1 "addrA" "0xaa").privateKey "0x" = true
        ∧ parseWalletStub (WalletRec.mk 1 "addrA" "0xaa").privateKey
          = some (WalletRec.mk 1 "addrA" "0xaa").address
        ∧ ∃ k, (sortWalletKeys ((twoKeyEnv.filter
              (fun e2 => jsStartsWith e2.name "PRIVATEKEY")).map
                (fun e2 => e2.name))).head? = some k
            ∧ envLookup twoKeyEnv k = some (WalletRec.mk 1 "addrA" "0xaa").privateKey) := by
  have h := loadWallets_at_most_one parseWalletStub twoKeyEnv
  have hmem : WalletRec.mk 1 "addrA" "0xaa" ∈ loadWallets parseWalletStub twoKeyEnv := by
    have heq : loadWallets parseWalletStub twoKeyEnv = [WalletRec.mk 1 "addrA" "0xaa"] := by
      decide
    rw [heq]
    exact List.mem_singleton_self _
  exact ⟨h.1, h.2 _ hmem⟩
